import Mathlib

/-!
Verification development for the voice-chess client.

The definitions below are a shallow embedding of the TypeScript client:
`submitTurnStream` and its server-sent-event reading loop (api/client.ts),
and the turn controller of the React `App` component (App.tsx).
JavaScript strings are modelled as Lean `String`s and the relevant
built-in string operations (`split('\n')`, `startsWith`, `slice`,
`endsWith`, `includes`) are re-implemented structurally over `String.data`
so that every definition evaluates inside the kernel.
-/

namespace VoiceChess

/-- JS `line.startsWith(pre)`. -/
def jsStartsWith (s pre : String) : Bool :=
  pre.data.isPrefixOf s.data

/-- JS `s.slice(n)`: drop the first `n` characters. -/
def jsSlice (s : String) (n : Nat) : String :=
  ⟨s.data.drop n⟩

/-- Splitting a character list at newline characters, keeping empty pieces,
exactly like JS `String.prototype.split('\n')`. -/
def splitCharsOnNL : List Char → List (List Char)
  | [] => [[]]
  | c :: cs =>
    let r := splitCharsOnNL cs
    if c = '\n' then [] :: r
    else
      match r with
      | hd :: tl => (c :: hd) :: tl
      | [] => [[c]]

/-- JS `chunk.split('\n')`. -/
def jsSplitNewline (s : String) : List String :=
  (splitCharsOnNL s.data).map fun cs => ⟨cs⟩

/-- JS `s.endsWith(suffix)`. -/
def jsEndsWith (s suf : String) : Bool :=
  suf.data.reverse.isPrefixOf s.data.reverse

/-- Substring test on character lists, used to model JS `includes`. -/
def listContainsSub : List Char → List Char → Bool
  | [], sub => sub.isEmpty
  | l@(_ :: xs), sub => sub.isPrefixOf l || listContainsSub xs sub

/-- JS `s.includes(sub)`. -/
def jsIncludes (s sub : String) : Bool :=
  listContainsSub s.data sub.data

/-- JS truthiness of a possibly-`undefined` string value: `undefined` and
the empty string are falsy, every other string is truthy. -/
def jsTruthy : Option String → Bool
  | none => false
  | some s => !s.data.isEmpty

/-- JS `a || b` for a possibly-`undefined` string `a` with string default. -/
def jsOrD (o : Option String) (d : String) : String :=
  if jsTruthy o then o.getD "" else d

/-- A move in the two wire representations (types.ts `{uci, san}`). -/
structure MoveInfo where
  uci : String
  san : String
deriving DecidableEq, Repr

/-- Wire shape of one move-log entry (types.ts `MoveRecord`). -/
structure MoveRecord where
  ply : Nat
  actor : String
  uci : String
  san : String
  transcript : Option String
  timestamp : String
deriving DecidableEq, Repr

/-- Wire shape of a session (types.ts `SessionState`). -/
structure SessionState where
  session_id : String
  fen : String
  moves : List MoveRecord
deriving DecidableEq, Repr

/-- Wire shape of a turn result (types.ts `TurnResponse`). -/
structure TurnResponse where
  transcript : String
  user_move : MoveInfo
  engine_move : MoveInfo
  fen : String
  moves : List MoveRecord
deriving DecidableEq, Repr

/-- One streamed event (client.ts `StreamUpdate`). The TS type annotates
`status` with a union of seven literals, but `JSON.parse(...) as
StreamUpdate` performs no runtime validation, so `status` is modelled as a
plain string (absent modelled as `""`, which compares unequal to every
status literal, as `undefined` does under `===`). The optional payload
fields are `Option`s, `none` standing for `undefined`. -/
structure StreamUpdate where
  status : String
  transcript : Option String
  move : Option MoveInfo
  user_move : Option MoveInfo
  engine_move : Option MoveInfo
  fen : Option String
  error : Option String
deriving DecidableEq, Repr

/-- A JS `Error` value as observed by the `catch` blocks: its `name` and
its `message`. -/
structure JsError where
  name : String
  message : String
deriving DecidableEq, Repr

/-- State threaded through `submitTurnStream`'s reading loop: the events
dispatched to `onUpdate` so far (in dispatch order) and the current value
of the `finalResult` variable. -/
structure LoopState where
  dispatched : List StreamUpdate
  finalResult : Option TurnResponse
deriving DecidableEq, Repr

/-- client.ts lines 104-111: the guard `data.status === 'complete' &&
data.fen` (note `data.fen` is a JS truthiness test, so an empty-string
`fen` does not count). -/
def isFinalEvent (e : StreamUpdate) : Bool :=
  if e.status = "complete" then jsTruthy e.fen else false

/-- client.ts line 112: the guard `data.status === 'error' || data.error`. -/
def isErrorEvent (e : StreamUpdate) : Bool :=
  if e.status = "error" then true else jsTruthy e.error

/-- client.ts lines 105-111: the `TurnResponse` synthesized from a
terminal success event. The TS non-null assertions (`data.transcript!`
etc.) are modelled by placeholder defaults for absent fields; every claim
below only concerns events that actually carry the asserted fields.
The `moves` list is the literal `[]` from the source. -/
def synthTurnResponse (d : StreamUpdate) : TurnResponse :=
  { transcript := d.transcript.getD "undefined"
    user_move := d.user_move.getD ⟨"undefined", "undefined"⟩
    engine_move := d.engine_move.getD ⟨"undefined", "undefined"⟩
    fen := d.fen.getD ""
    moves := [] }

/-- client.ts lines 99-101: a line is acted on when it starts with the
frame marker `"data: "`, in which case `JSON.parse(line.slice(6))` is
attempted; `none` models both a non-frame line and a parse failure
(`JSON.parse` throwing). The parse function is a parameter of the model;
`jsonParseUpdate` below is the concrete instance used for evaluation. -/
def lineParse (p : String → Option StreamUpdate) (l : String) : Option StreamUpdate :=
  if jsStartsWith l "data: " then p (jsSlice l 6) else none

/-- client.ts lines 98-119: processing of one line of a chunk. On a parsed
event the event is dispatched (`onUpdate(data)`), then either
`finalResult` is assigned (terminal success) or, for an error event, the
`throw new Error(data.error || 'Unknown error')` fires — but that throw
happens inside the `try` whose `catch (parseError)` only logs, so the
exception is swallowed and the loop state is left unchanged. -/
def processLine (p : String → Option StreamUpdate) (st : LoopState) (l : String) : LoopState :=
  match lineParse p l with
  | none => st
  | some d =>
    let st1 : LoopState := { st with dispatched := st.dispatched ++ [d] }
    if isFinalEvent d then
      { st1 with finalResult := some (synthTurnResponse d) }
    else if isErrorEvent d then
      st1
    else
      st1

/-- client.ts lines 95-119: one `reader.read()` chunk is decoded and split
on newlines, and each line is processed in order. -/
def processChunk (p : String → Option StreamUpdate) (st : LoopState) (chunk : String) : LoopState :=
  (jsSplitNewline chunk).foldl (processLine p) st

/-- The loop state after consuming a whole sequence of decoded chunks,
starting from the initial state (`finalResult = null`, nothing
dispatched). -/
def runStream (p : String → Option StreamUpdate) (chunks : List String) : LoopState :=
  chunks.foldl (processChunk p) ⟨[], none⟩

/-- One outcome of `reader.read()`: a decoded chunk, the `done` signal, or
a rejection (e.g. the `AbortError` raised when the timeout fires
mid-stream). -/
inductive ReadEvent where
  | chunk (s : String)
  | done
  | fail (e : JsError)
deriving DecidableEq, Repr

/-- client.ts lines 91-120: the `while (true)` read loop. It stops at the
first `done`, propagates a read rejection, and otherwise folds each chunk
into the loop state. An exhausted event list behaves like `done`. -/
def runReadLoop (p : String → Option StreamUpdate) (st : LoopState) : List ReadEvent → Except JsError LoopState
  | [] => .ok st
  | .done :: _ => .ok st
  | .fail e :: _ => .error e
  | .chunk c :: rest => runReadLoop p (processChunk p st c) rest

/-- Outcome of the guarded reading section: the loop's result and whether
`reader.releaseLock()` ran. -/
structure ReaderOutcome where
  result : Except JsError LoopState
  lockReleased : Bool
deriving Repr

/-- client.ts lines 90-123: `try { ...read loop... } finally {
reader.releaseLock() }` — the finalizer runs on the normal exit and on the
exceptional exit alike. -/
def readAllWithLock (p : String → Option StreamUpdate) (reads : List ReadEvent) : ReaderOutcome :=
  match runReadLoop p ⟨[], none⟩ reads with
  | .ok st => { result := .ok st, lockReleased := true }
  | .error e => { result := .error e, lockReleased := true }

/-- client.ts lines 90-129: the reading phase followed by the
`if (!finalResult) throw new Error("No final result received from
server")` check and the `return finalResult`. -/
def streamPhase (p : String → Option StreamUpdate) (reads : List ReadEvent) : Except JsError TurnResponse :=
  match (readAllWithLock p reads).result with
  | .error e => .error e
  | .ok st =>
    match st.finalResult with
    | none => .error ⟨"Error", "No final result received from server"⟩
    | some r => .ok r

/-- client.ts line 67: the fixed per-turn deadline in milliseconds,
`setTimeout(() => controller.abort(), 15000)`. -/
def TURN_TIMEOUT_MS : Nat := 15000

/-- client.ts lines 130-134: the outer `catch` — an `AbortError` (the
timeout's abort) is replaced by the timeout-specific message, every other
error propagates unchanged; the caller observes the message of the
rejection. -/
def mapAbort : Except JsError TurnResponse → Except String TurnResponse
  | .ok r => .ok r
  | .error e =>
    .error (if e.name = "AbortError" then
      "Request timed out. Please try again with a shorter recording."
    else e.message)

/-- How the `fetch` of client.ts lines 70-85 resolved: the fetch itself
threw (network failure or abort), or a response arrived with its `ok`
flag, optional JSON error `detail`, `statusText`, and, when a body is
present, the sequence of `reader.read()` outcomes. -/
inductive FetchResult where
  | fetchThrew (e : JsError)
  | response (ok : Bool) (detail : Option String) (statusText : String)
      (body : Option (List ReadEvent))
deriving DecidableEq, Repr

/-- client.ts lines 56-138: the whole of `submitTurnStream` downstream of
the request, as a function of how the connection behaved. A non-ok
response rejects with `errorData?.detail || response.statusText`; a
missing body rejects with `"No response body"`; otherwise the stream is
consumed; finally the outer catch rewrites an abort into the timeout
message. -/
def submitTurnStream (p : String → Option StreamUpdate) (fr : FetchResult) : Except String TurnResponse :=
  mapAbort
    (match fr with
     | .fetchThrew e => .error e
     | .response ok detail statusText body =>
       if ok then
         match body with
         | none => .error ⟨"Error", "No response body"⟩
         | some reads => streamPhase p reads
       else
         .error ⟨"Error", jsOrD detail statusText⟩)

/-- One JSON value occurring in an event frame: a string, or a
`uci`/`san` move object. -/
inductive JVal where
  | str (v : String)
  | mov (m : MoveInfo)
deriving DecidableEq, Repr

/-- Scan up to the closing quote of a JSON string literal; fails when the
input ends first (a truncated frame). -/
def spanQuote : List Char → Option (List Char × List Char)
  | [] => none
  | c :: rest =>
    if c = '"' then some ([], rest)
    else
      match spanQuote rest with
      | some (s, r) => some (c :: s, r)
      | none => none

/-- Parse a JSON string literal (no escape sequences — none occur in the
event frames considered here). -/
def parseStrLit (cs : List Char) : Option (String × List Char) :=
  match cs with
  | '"' :: rest =>
    match spanQuote rest with
    | some (s, r) => some (⟨s⟩, r)
    | none => none
  | _ => none

/-- Consume one expected character. -/
def expectChar (c : Char) : List Char → Option (List Char)
  | [] => none
  | x :: rest => if x = c then some rest else none

/-- Parse a move object `\x7b"uci":"...","san":"..."\x7d`. -/
def parseMoveObj (cs : List Char) : Option (MoveInfo × List Char) := do
  let cs ← expectChar '\x7b' cs
  let (k1, cs) ← parseStrLit cs
  let cs ← expectChar ':' cs
  let (v1, cs) ← parseStrLit cs
  let cs ← expectChar ',' cs
  let (k2, cs) ← parseStrLit cs
  let cs ← expectChar ':' cs
  let (v2, cs) ← parseStrLit cs
  let cs ← expectChar '\x7d' cs
  if k1 = "uci" ∧ k2 = "san" then some (⟨v1, v2⟩, cs) else none

/-- Parse one member value: a string, or a nested move object. -/
def parseJVal (cs : List Char) : Option (JVal × List Char) :=
  match cs with
  | '"' :: _ =>
    match parseStrLit cs with
    | some (v, r) => some (.str v, r)
    | none => none
  | '\x7b' :: _ =>
    match parseMoveObj cs with
    | some (m, r) => some (.mov m, r)
    | none => none
  | _ => none

/-- Parse the comma-separated members of the top-level object up to its
closing brace; `fuel` bounds the recursion (one unit per member). -/
def parsePairs : Nat → List Char → Option (List (String × JVal) × List Char)
  | 0, _ => none
  | Nat.succ fuel, cs => do
    let (k, cs) ← parseStrLit cs
    let cs ← expectChar ':' cs
    let (v, cs) ← parseJVal cs
    match cs with
    | ',' :: rest => do
      let (ps, cs2) ← parsePairs fuel rest
      some ((k, v) :: ps, cs2)
    | '\x7d' :: rest => some ([(k, v)], rest)
    | _ => none

/-- First string value bound to key `k` (event fields are not duplicated
in the frames considered here). -/
def findStr (ps : List (String × JVal)) (k : String) : Option String :=
  match ps with
  | [] => none
  | (k', v) :: rest =>
    if k' = k then
      match v with
      | .str s => some s
      | .mov _ => none
    else findStr rest k

/-- First move value bound to key `k`. -/
def findMv (ps : List (String × JVal)) (k : String) : Option MoveInfo :=
  match ps with
  | [] => none
  | (k', v) :: rest =>
    if k' = k then
      match v with
      | .mov m => some m
      | .str _ => none
    else findMv rest k

/-- Assemble a `StreamUpdate` from the parsed members: exactly the field
reads `data.status`, `data.transcript`, ... performed by the loop, with an
absent `status` modelled as `""`. -/
def buildUpdate (ps : List (String × JVal)) : StreamUpdate :=
  { status := (findStr ps "status").getD ""
    transcript := findStr ps "transcript"
    move := findMv ps "move"
    user_move := findMv ps "user_move"
    engine_move := findMv ps "engine_move"
    fen := findStr ps "fen"
    error := findStr ps "error" }

/-- Concrete instance of the frame parser: `JSON.parse(line.slice(6)) as
StreamUpdate`, restricted to the event grammar actually sent on this
channel (a non-empty flat object whose values are strings or `uci`/`san`
move objects, without whitespace or escape sequences); any other or
truncated text is a parse failure, i.e. `JSON.parse` throwing. -/
def jsonParseUpdate (s : String) : Option StreamUpdate :=
  match s.data with
  | '\x7b' :: rest =>
    match parsePairs (rest.length + 1) rest with
    | some (ps, []) => some (buildUpdate ps)
    | _ => none
  | _ => none

/-- The slice of the `App` component state relevant to the turn
controller: the session view, the status/error lines, and the
`isLoading` / `isSubmitting` / `gameEnded` / `isRecording` flags
(`isRecording` lives in the `useAudioRecorder` hook in the source). The
pure view toggles (`showMoves`, `showPieces`, ...) are omitted. -/
structure AppState where
  session : Option SessionState
  status : Option String
  isLoading : Bool
  isSubmitting : Bool
  error : Option String
  gameEnded : Bool
  isRecording : Bool
deriving DecidableEq, Repr

/-- App.tsx lines 96-109, `handleStartRecording` with `start()`
succeeding: bail out unless a session id is present and neither a
recording nor a submission is in flight; otherwise recording begins and
the status line is set. (This callback itself does not test `gameEnded`;
the gate is at its two call sites, modelled below.) -/
def handleStartRecording (s : AppState) : AppState :=
  if !jsTruthy (s.session.map (·.session_id)) || s.isRecording || s.isSubmitting then s
  else { s with isRecording := true,
                status := some "Recording... (release to submit)",
                error := none }

/-- App.tsx lines 270-279: the record button fires `handleStartRecording`
on mouse-down/touch-start, but is `disabled=\x7bisSubmitting || gameEnded\x7d`,
and a disabled button receives no such events. -/
def pressRecordButton (s : AppState) : AppState :=
  if s.isSubmitting || s.gameEnded then s else handleStartRecording s

/-- App.tsx lines 213-219: the Enter-key handler calls
`handleStartRecording` only when no recording or submission is in flight,
`gameEnded` is false, and a session id is present. -/
def enterKeyDown (s : AppState) : AppState :=
  if !s.isRecording && !s.isSubmitting && !s.gameEnded
      && jsTruthy (s.session.map (·.session_id)) then
    handleStartRecording s
  else s

/-- App.tsx lines 66-79, `startNewGame`: clear `gameEnded`, `error` and
`status`, then install the created session (or the creation failure
message); `created` stands for how `createSession` resolved. -/
def startNewGame (s : AppState) (created : Except String SessionState) : AppState :=
  let s1 : AppState := { s with isLoading := true, gameEnded := false,
                                error := none, status := none }
  match created with
  | .ok sess => { s1 with session := some sess, isLoading := false }
  | .error msg => { s1 with error := some msg, isLoading := false }

/-- App.tsx lines 150-154: after `submitTurnStream` resolves, the session
is re-fetched and the local view replaced with the fetched state, and the
error line cleared. -/
def reconcileSession (s : AppState) (fetched : SessionState) : AppState :=
  { s with session := some fetched, error := none }

/-- App.tsx lines 156-178: the four terminal-pattern tests on the engine
move's SAN, in source order, each setting the status line and
`gameEnded`; the final `else` only sets the status line. -/
def applyTerminalCheck (s : AppState) (transcript userSan engineSan : String) : AppState :=
  if engineSan = "Checkmate!" then
    { s with status := some ("Checkmate! You win! Your move: " ++ userSan),
             gameEnded := true }
  else if engineSan = "Stalemate" then
    { s with status := some ("Stalemate! Game drawn. Your move: " ++ userSan),
             gameEnded := true }
  else if jsEndsWith engineSan "#" then
    { s with status := some ("Checkmate! Engine wins with " ++ engineSan),
             gameEnded := true }
  else if jsIncludes engineSan "Stalemate" then
    { s with status := some ("Stalemate! Game drawn. Engine played " ++ engineSan),
             gameEnded := true }
  else
    { s with status := some ("Heard \"" ++ transcript ++ "\". Interpreted move "
               ++ userSan ++ ". Engine replied " ++ engineSan ++ ".") }

/-- The disjunction of the four terminal patterns of
`applyTerminalCheck`, in the same order. -/
def isTerminalSan (san : String) : Bool :=
  decide (san = "Checkmate!") || decide (san = "Stalemate")
    || jsEndsWith san "#" || jsIncludes san "Stalemate"

/-- App.tsx lines 148-178: the success path of `handleStopRecording` after
`submitTurnStream` resolves with `turn` and `getSession` with `fetched`:
reconcile the session view, then run the terminal check on the turn's
fields. Note the streamed `turn.moves` list is never read. -/
def handleTurnSuccess (s : AppState) (turn : TurnResponse) (fetched : SessionState) : AppState :=
  applyTerminalCheck (reconcileSession s fetched)
    turn.transcript turn.user_move.san turn.engine_move.san

/-- JS string interpolation of a possibly-`undefined` value. -/
def jsShowOpt (o : Option String) : String :=
  o.getD "undefined"

/-- JS `update.move?.san` interpolated into a template literal. -/
def optSanStr (m : Option MoveInfo) : String :=
  jsShowOpt (m.map (·.san))

/-- App.tsx lines 125-146, `handleStreamUpdate`: the status message set
for each streamed event, `none` when the `switch` has no matching case
(in particular there is no `case 'error'`). -/
def handleStreamUpdateMsg (u : StreamUpdate) : Option String :=
  if u.status = "transcribing" then
    some "Transcribing audio..."
  else if u.status = "transcribed" then
    some ("Heard: \"" ++ jsShowOpt u.transcript ++ "\"")
  else if u.status = "interpreting" then
    some "Interpreting move with LLM..."
  else if u.status = "player_moved" then
    some ("Your move: " ++ optSanStr u.move ++ ". Engine is thinking...")
  else if u.status = "engine_thinking" then
    some "Engine is calculating..."
  else if u.status = "complete" then
    some ("Complete! Engine replied " ++ optSanStr u.engine_move ++ ".")
  else
    none

/-- The events of one chunk, in order: each newline-separated line that
carries the `"data: "` marker and parses, and nothing else. -/
def chunkEvents (p : String → Option StreamUpdate) (chunk : String) : List StreamUpdate :=
  (jsSplitNewline chunk).filterMap (lineParse p)

/-- All lines the read loop sees for a given chunk sequence, in order. -/
def allLines (chunks : List String) : List String :=
  (chunks.map jsSplitNewline).flatten

/-- The read outcomes of a connection that delivers the given chunks and
then signals `done`. -/
def chunkReads (chunks : List String) : List ReadEvent :=
  chunks.map ReadEvent.chunk

/-- Sample fetched authoritative session used in concrete instances. -/
def sampleFetched : SessionState := ⟨"sid", "fen-after", []⟩

/-- Sample successful turn whose engine SAN carries the mate suffix. -/
def sampleTurn : TurnResponse :=
  ⟨"knight takes f seven", ⟨"g5f7", "Nxf7"⟩, ⟨"h5h7", "Qh7#"⟩, "fen-after", []⟩

/-- Sample controller state with a live session and nothing in flight. -/
def sampleIdle : AppState :=
  ⟨some sampleFetched, none, false, false, none, false, false⟩

/-- Sample controller state after a game has ended. -/
def sampleEnded : AppState :=
  ⟨some sampleFetched, none, false, false, none, true, false⟩

/-- Sample resolution of `createSession` for a new game. -/
def sampleCreated : Except String SessionState := .ok ⟨"sid2", "start-fen", []⟩

/-- Sample streamed event with the first progress status. -/
def sampleUpdate : StreamUpdate := ⟨"transcribing", none, none, none, none, none, none⟩

/-- Sample chunk sequence containing progress events but no terminal
success event. -/
def sampleChunksNoFinal : List String :=
  ["data: \x7b\x22status\x22:\x22transcribing\x22\x7d\n"]

/-- Sample complete frame line carrying all result fields. -/
def sampleCompleteLine : String :=
  "data: \x7b\x22status\x22:\x22complete\x22,\x22transcript\x22:\x22knight to f3\x22,\x22user_move\x22:\x7b\x22uci\x22:\x22g1f3\x22,\x22san\x22:\x22Nf3\x22\x7d,\x22engine_move\x22:\x7b\x22uci\x22:\x22g8f6\x22,\x22san\x22:\x22Nf6\x22\x7d,\x22fen\x22:\x22fen-next\x22\x7d"

/-- The event `sampleCompleteLine` parses to. -/
def sampleCompleteEvent : StreamUpdate :=
  ⟨"complete", some "knight to f3", none, some ⟨"g1f3", "Nf3"⟩,
    some ⟨"g8f6", "Nf6"⟩, some "fen-next", none⟩

/-- Sample complete frame line that carries no `fen`. -/
def sampleCompNoFenLine : String := "data: \x7b\x22status\x22:\x22complete\x22\x7d"

/-- The event `sampleCompNoFenLine` parses to. -/
def sampleCompNoFenEvent : StreamUpdate := ⟨"complete", none, none, none, none, none, none⟩

/-- Sample chunk sequence whose only event is a `complete` without `fen`. -/
def sampleCompNoFenChunks : List String :=
  ["data: \x7b\x22status\x22:\x22complete\x22\x7d\n"]

section Lemmas

variable (p : String → Option StreamUpdate)

theorem processLine_dispatched (st : LoopState) (l : String) :
    (processLine p st l).dispatched = st.dispatched ++ (lineParse p l).toList := by
  unfold processLine
  cases lineParse p l with
  | none => simp
  | some d =>
    by_cases h : isFinalEvent d = true
    · simp [h]
    · simp [h]

theorem processLine_finalResult (st : LoopState) (l : String) :
    (processLine p st l).finalResult =
      match lineParse p l with
      | some d => if isFinalEvent d then some (synthTurnResponse d) else st.finalResult
      | none => st.finalResult := by
  unfold processLine
  cases lineParse p l with
  | none => rfl
  | some d =>
    by_cases h : isFinalEvent d = true
    · simp [h]
    · simp [h]

theorem foldl_processLine_dispatched (lines : List String) :
    ∀ st : LoopState,
      (lines.foldl (processLine p) st).dispatched
        = st.dispatched ++ lines.filterMap (lineParse p) := by
  induction lines with
  | nil => intro st; simp
  | cons l ls ih =>
    intro st
    rw [List.foldl_cons, ih, processLine_dispatched]
    cases h : lineParse p l <;> simp [List.filterMap_cons, h]

theorem foldl_processLine_final_none (lines : List String) :
    ∀ st : LoopState, st.finalResult = none →
      (∀ e ∈ lines.filterMap (lineParse p), isFinalEvent e = false) →
      (lines.foldl (processLine p) st).finalResult = none := by
  induction lines with
  | nil => intro st h _; simpa using h
  | cons l ls ih =>
    intro st h hall
    rw [List.foldl_cons]
    cases hl : lineParse p l with
    | none =>
      refine ih _ ?_ ?_
      · rw [processLine_finalResult, hl, h]
      · intro e he
        exact hall e (by simp [List.filterMap_cons, hl, he])
    | some d =>
      have hd : isFinalEvent d = false :=
        hall d (by simp [List.filterMap_cons, hl])
      refine ih _ ?_ ?_
      · rw [processLine_finalResult, hl]
        simp [hd, h]
      · intro e he
        exact hall e (by simp [List.filterMap_cons, hl, he])

theorem foldl_processLine_moves_nil (lines : List String) :
    ∀ st : LoopState, (∀ r, st.finalResult = some r → r.moves = []) →
      ∀ r, (lines.foldl (processLine p) st).finalResult = some r → r.moves = [] := by
  induction lines with
  | nil => intro st h; exact h
  | cons l ls ih =>
    intro st h
    rw [List.foldl_cons]
    refine ih _ ?_
    intro r hr
    rw [processLine_finalResult] at hr
    cases hl : lineParse p l with
    | none => rw [hl] at hr; exact h r hr
    | some d =>
      rw [hl] at hr
      by_cases hf : isFinalEvent d = true
      · simp [hf] at hr
        subst hr
        rfl
      · simp [hf] at hr
        exact h r hr

theorem foldl_processChunk_eq (chunks : List String) :
    ∀ st : LoopState,
      chunks.foldl (processChunk p) st
        = (allLines chunks).foldl (processLine p) st := by
  induction chunks with
  | nil => intro st; rfl
  | cons c cs ih =>
    intro st
    rw [List.foldl_cons, ih]
    show (allLines cs).foldl (processLine p) (processChunk p st c)
      = (allLines (c :: cs)).foldl (processLine p) st
    unfold allLines
    rw [List.map_cons, List.flatten_cons, List.foldl_append]
    rfl

theorem runStream_dispatched_lines (chunks : List String) :
    (runStream p chunks).dispatched = (allLines chunks).filterMap (lineParse p) := by
  unfold runStream
  rw [foldl_processChunk_eq, foldl_processLine_dispatched]
  rfl

theorem runStream_dispatched (chunks : List String) :
    (runStream p chunks).dispatched
      = (chunks.map (chunkEvents p)).flatten := by
  rw [runStream_dispatched_lines]
  unfold allLines chunkEvents
  rw [List.filterMap_flatten, List.map_map]
  rfl

theorem runStream_final_none (chunks : List String)
    (h : ∀ e ∈ (runStream p chunks).dispatched, isFinalEvent e = false) :
    (runStream p chunks).finalResult = none := by
  rw [runStream_dispatched_lines] at h
  unfold runStream
  rw [foldl_processChunk_eq]
  exact foldl_processLine_final_none p _ _ rfl h

theorem runReadLoop_chunks (chunks : List String) :
    ∀ st : LoopState,
      runReadLoop p st (chunkReads chunks)
        = .ok (chunks.foldl (processChunk p) st) := by
  induction chunks with
  | nil => intro st; rfl
  | cons c cs ih => intro st; rw [List.foldl_cons]; exact ih _

theorem submitTurnStream_chunks (chunks : List String)
    (detail : Option String) (statusText : String) :
    submitTurnStream p (.response true detail statusText (some (chunkReads chunks)))
      = match (runStream p chunks).finalResult with
        | none => .error "No final result received from server"
        | some r => .ok r := by
  show mapAbort (streamPhase p (chunkReads chunks)) = _
  unfold streamPhase readAllWithLock
  rw [runReadLoop_chunks]
  show mapAbort (match (runStream p chunks).finalResult with
    | none => Except.error ⟨"Error", "No final result received from server"⟩
    | some r => Except.ok r) = _
  cases hfr : (runStream p chunks).finalResult with
  | none => rfl
  | some r => rfl

theorem runReadLoop_moves_nil (reads : List ReadEvent) :
    ∀ st : LoopState, (∀ r, st.finalResult = some r → r.moves = []) →
      ∀ st', runReadLoop p st reads = .ok st' →
        ∀ r, st'.finalResult = some r → r.moves = [] := by
  induction reads with
  | nil =>
    intro st h st' hok
    simp only [runReadLoop] at hok
    cases hok
    exact h
  | cons ev rest ih =>
    intro st h st' hok
    cases ev with
    | done =>
      simp only [runReadLoop] at hok
      cases hok
      exact h
    | fail e =>
      simp only [runReadLoop] at hok
      cases hok
    | chunk c =>
      exact ih (processChunk p st c) (foldl_processLine_moves_nil p (jsSplitNewline c) st h) st' hok

theorem streamPhase_ok (reads : List ReadEvent) (r : TurnResponse)
    (h : streamPhase p reads = .ok r) : r.moves = [] := by
  cases hrl : runReadLoop p ⟨[], none⟩ reads with
  | error e =>
    have hsp : streamPhase p reads = Except.error e := by
      unfold streamPhase readAllWithLock
      rw [hrl]
    rw [hsp] at h
    cases h
  | ok st =>
    have hsp : streamPhase p reads
        = (match st.finalResult with
           | none => Except.error ⟨"Error", "No final result received from server"⟩
           | some r => Except.ok r) := by
      unfold streamPhase readAllWithLock
      rw [hrl]
    rw [hsp] at h
    cases hfr : st.finalResult with
    | none =>
      rw [hfr] at h
      cases h
    | some r' =>
      rw [hfr] at h
      cases h
      exact runReadLoop_moves_nil p reads ⟨[], none⟩ (fun r hr => by cases hr) st hrl _ hfr

theorem submitTurnStream_ok_moves_nil (fr : FetchResult) (r : TurnResponse)
    (h : submitTurnStream p fr = .ok r) : r.moves = [] := by
  cases fr with
  | fetchThrew e => simp [submitTurnStream, mapAbort] at h
  | response ok detail statusText body =>
    cases ok with
    | false => simp [submitTurnStream, mapAbort] at h
    | true =>
      cases body with
      | none => simp [submitTurnStream, mapAbort] at h
      | some reads =>
        have h2 : mapAbort (streamPhase p reads) = .ok r := h
        cases hs : streamPhase p reads with
        | error e => rw [hs] at h2; simp [mapAbort] at h2
        | ok r' =>
          rw [hs] at h2
          simp [mapAbort] at h2
          rw [← h2]
          exact streamPhase_ok p reads r' hs

end Lemmas

section ControllerLemmas

theorem applyTerminalCheck_gameEnded (s : AppState) (tr us es : String) :
    (applyTerminalCheck s tr us es).gameEnded = (isTerminalSan es || s.gameEnded) := by
  unfold applyTerminalCheck isTerminalSan
  by_cases h1 : es = "Checkmate!" <;> by_cases h2 : es = "Stalemate" <;>
    by_cases h3 : jsEndsWith es "#" = true <;>
    by_cases h4 : jsIncludes es "Stalemate" = true <;>
    simp [h1, h2, h3, h4]

theorem applyTerminalCheck_session (s : AppState) (tr us es : String) :
    (applyTerminalCheck s tr us es).session = s.session := by
  unfold applyTerminalCheck
  split
  · rfl
  · split
    · rfl
    · split
      · rfl
      · split
        · rfl
        · rfl

theorem length_pos_left (a b : String) (h : 0 < a.length) : 0 < (a ++ b).length := by
  rw [String.length_append]
  omega

end ControllerLemmas

section Claims

/-- Claim C1 (code-bug evidence). The claim states that on an event whose
status is `error` or which carries an error payload, consumption is
aborted and that error message becomes the rejection of
`submitTurnStream`. In the code the `throw new Error(data.error || ...)`
sits inside the `try` whose `catch (parseError)` only logs, so the thrown
error is swallowed: the error event is dispatched, consumption continues,
a later terminal success event still resolves the call, and with no such
event the call rejects with the missing-result message, never with the
event's error message (`"boom"` here). -/
theorem c1_error_event_swallowed :
    (runStream jsonParseUpdate
        ["data: \x7b\x22status\x22:\x22error\x22,\x22error\x22:\x22boom\x22\x7d\n",
         "data: \x7b\x22status\x22:\x22complete\x22,\x22fen\x22:\x22F\x22\x7d\n"]).dispatched
      = [⟨"error", none, none, none, none, none, some "boom"⟩,
         ⟨"complete", none, none, none, none, some "F", none⟩]
    ∧ submitTurnStream jsonParseUpdate
        (.response true none "" (some
          [.chunk "data: \x7b\x22status\x22:\x22error\x22,\x22error\x22:\x22boom\x22\x7d\n",
           .chunk "data: \x7b\x22status\x22:\x22complete\x22,\x22fen\x22:\x22F\x22\x7d\n",
           .done]))
      = .ok ⟨"undefined", ⟨"undefined", "undefined"⟩, ⟨"undefined", "undefined"⟩, "F", []⟩
    ∧ submitTurnStream jsonParseUpdate
        (.response true none "" (some
          [.chunk "data: \x7b\x22status\x22:\x22error\x22,\x22error\x22:\x22boom\x22\x7d\n",
           .done]))
      = .error "No final result received from server"
    ∧ ("No final result received from server" : String) ≠ "boom" := by
  refine ⟨rfl, rfl, rfl, by decide⟩

/-- Claim C2 counterexample. A genuine event frame
`data: \x7b"status":"transcribing"\x7d` + newline, split between two
`reader.read()` chunks, is never dispatched: the dispatched list for the
two-chunk stream is empty, although the concatenation of the chunks is
exactly the frame and the frame's payload parses on its own. -/
theorem c2_counterexample_split_frame :
    ("data: \x7b\x22status\x22:\x22transcrib" ++ "ing\x22\x7d\n"
        = "data: \x7b\x22status\x22:\x22transcribing\x22\x7d\n")
    ∧ lineParse jsonParseUpdate "data: \x7b\x22status\x22:\x22transcribing\x22\x7d"
        = some ⟨"transcribing", none, none, none, none, none, none⟩
    ∧ (runStream jsonParseUpdate
        ["data: \x7b\x22status\x22:\x22transcrib", "ing\x22\x7d\n"]).dispatched = [] := by
  refine ⟨rfl, rfl, rfl⟩

/-- Claim C2 as amended: every framed event whose bytes lie within a
single read chunk is parsed exactly once and dispatched to the caller's
handler in arrival order — the dispatched sequence equals the in-order
concatenation, chunk by chunk, of the parseable marker-prefixed lines of
that chunk; a frame whose bytes span two chunks contributes nothing. -/
theorem c2_amended_per_chunk_dispatch (p : String → Option StreamUpdate)
    (chunks : List String) :
    (runStream p chunks).dispatched = (chunks.map (chunkEvents p)).flatten :=
  runStream_dispatched p chunks

/-- Claim C5: when no dispatched event of the stream is a terminal
success event (status `complete` with a truthy `fen`), `submitTurnStream`
rejects with the missing-result error. -/
theorem c5_missing_result (p : String → Option StreamUpdate) (chunks : List String)
    (detail : Option String) (statusText : String)
    (h : ∀ e ∈ (runStream p chunks).dispatched, isFinalEvent e = false) :
    submitTurnStream p (.response true detail statusText (some (chunkReads chunks)))
      = .error "No final result received from server" := by
  rw [submitTurnStream_chunks, runStream_final_none p chunks h]

/-- Witness for C5 at a concrete stream with one progress event and no
terminal success event. -/
theorem c5_missing_result_witness :
    (∀ e ∈ (runStream jsonParseUpdate sampleChunksNoFinal).dispatched,
      isFinalEvent e = false)
    ∧ submitTurnStream jsonParseUpdate
        (.response true none "ok" (some (chunkReads sampleChunksNoFinal)))
      = .error "No final result received from server" :=
  ⟨by decide, c5_missing_result jsonParseUpdate sampleChunksNoFinal none "ok" (by decide)⟩

/-- Claim C9: on every exit of the reading section — normal completion of
the stream, or an error/abort thrown by a read — the reader's lock is
released (the `finally` at client.ts line 121-123). -/
theorem c9_lock_released (p : String → Option StreamUpdate) (reads : List ReadEvent) :
    (readAllWithLock p reads).lockReleased = true
    ∧ ((∃ st, (readAllWithLock p reads).result = .ok st)
        ∨ (∃ e, (readAllWithLock p reads).result = .error e)) := by
  unfold readAllWithLock
  cases runReadLoop p ⟨[], none⟩ reads with
  | ok st => exact ⟨rfl, Or.inl ⟨st, rfl⟩⟩
  | error e => exact ⟨rfl, Or.inr ⟨e, rfl⟩⟩

/-- Claim C3: after a successful turn whose engine SAN matches one of the
four terminal patterns, `gameEnded` is set; in a `gameEnded` state neither
the record button (disabled) nor the Enter key (guard) can start a
recording, so no new turn can be submitted; and `startNewGame` — however
`createSession` resolves — clears the `gameEnded` state. -/
theorem c3_game_ended_freeze (s sEnd : AppState) (turn : TurnResponse)
    (fetched : SessionState) (created : Except String SessionState)
    (hterm : isTerminalSan turn.engine_move.san = true)
    (hend : sEnd.gameEnded = true) :
    (handleTurnSuccess s turn fetched).gameEnded = true
    ∧ pressRecordButton sEnd = sEnd
    ∧ enterKeyDown sEnd = sEnd
    ∧ (startNewGame sEnd created).gameEnded = false := by
  refine ⟨?_, ?_, ?_, ?_⟩
  · show (applyTerminalCheck (reconcileSession s fetched)
      turn.transcript turn.user_move.san turn.engine_move.san).gameEnded = true
    rw [applyTerminalCheck_gameEnded, hterm]
    rfl
  · simp [pressRecordButton, hend]
  · simp [enterKeyDown, hend]
  · unfold startNewGame
    cases created <;> rfl

/-- Witness for C3 at a concrete mate-suffixed SAN (`"Qh7#"`) and a
concrete game-ended state. -/
theorem c3_game_ended_freeze_witness :
    isTerminalSan sampleTurn.engine_move.san = true
    ∧ sampleEnded.gameEnded = true
    ∧ ((handleTurnSuccess sampleIdle sampleTurn sampleFetched).gameEnded = true
      ∧ pressRecordButton sampleEnded = sampleEnded
      ∧ enterKeyDown sampleEnded = sampleEnded
      ∧ (startNewGame sampleEnded sampleCreated).gameEnded = false) :=
  ⟨by decide, rfl,
    c3_game_ended_freeze sampleIdle sampleEnded sampleTurn sampleFetched sampleCreated
      (by decide) rfl⟩

/-- Claim C4 counterexample: the status-mapping `switch` of
`handleStreamUpdate` has no case for the enumerated status `error`, so an
error event produces no status message at all — refuting the claim that
every enumerated status maps to a non-empty message. -/
theorem c4_counterexample_error_status :
    handleStreamUpdateMsg ⟨"error", none, none, none, none, none, some "boom"⟩ = none :=
  rfl

/-- Claim C4 as amended: each of the six non-`error` enumerated statuses
maps to a non-empty human-readable message; the `error` status maps to no
message (error display is carried by the rejection path instead). -/
theorem c4_amended_nonerror_statuses (u : StreamUpdate)
    (h : u.status = "transcribing" ∨ u.status = "transcribed"
      ∨ u.status = "interpreting" ∨ u.status = "player_moved"
      ∨ u.status = "engine_thinking" ∨ u.status = "complete") :
    ∃ m, handleStreamUpdateMsg u = some m ∧ 0 < m.length := by
  rcases h with h | h | h | h | h | h
  · refine ⟨"Transcribing audio...", ?_, by decide⟩
    unfold handleStreamUpdateMsg
    rw [h, if_pos rfl]
  · refine ⟨"Heard: \"" ++ jsShowOpt u.transcript ++ "\"", ?_, ?_⟩
    · unfold handleStreamUpdateMsg
      rw [h, if_neg (by decide), if_pos rfl]
    · exact length_pos_left _ _ (length_pos_left _ _ (by decide))
  · refine ⟨"Interpreting move with LLM...", ?_, by decide⟩
    unfold handleStreamUpdateMsg
    rw [h, if_neg (by decide), if_neg (by decide), if_pos rfl]
  · refine ⟨"Your move: " ++ optSanStr u.move ++ ". Engine is thinking...", ?_, ?_⟩
    · unfold handleStreamUpdateMsg
      rw [h, if_neg (by decide), if_neg (by decide), if_neg (by decide), if_pos rfl]
    · exact length_pos_left _ _ (length_pos_left _ _ (by decide))
  · refine ⟨"Engine is calculating...", ?_, by decide⟩
    unfold handleStreamUpdateMsg
    rw [h, if_neg (by decide), if_neg (by decide), if_neg (by decide),
      if_neg (by decide), if_pos rfl]
  · refine ⟨"Complete! Engine replied " ++ optSanStr u.engine_move ++ ".", ?_, ?_⟩
    · unfold handleStreamUpdateMsg
      rw [h, if_neg (by decide), if_neg (by decide), if_neg (by decide),
        if_neg (by decide), if_neg (by decide), if_pos rfl]
    · exact length_pos_left _ _ (length_pos_left _ _ (by decide))

/-- Witness for the amended C4 at a concrete `transcribing` event. -/
theorem c4_amended_witness :
    sampleUpdate.status = "transcribing"
    ∧ ∃ m, handleStreamUpdateMsg sampleUpdate = some m ∧ 0 < m.length :=
  ⟨rfl, c4_amended_nonerror_statuses sampleUpdate (Or.inl rfl)⟩

/-- Claim C6: a `complete` event carrying a (truthy) `fen` and the result
fields makes the loop assign `finalResult` to the turn synthesized from
exactly that event's transcript, user move, engine move and position,
with an empty `moves` list; and globally, every successful resolution of
`submitTurnStream` has an empty `moves` list. -/
theorem c6_synth_result (p : String → Option StreamUpdate) (st : LoopState)
    (l : String) (e : StreamUpdate) (f tr : String) (um em : MoveInfo)
    (hl : lineParse p l = some e) (hs : e.status = "complete")
    (hf : e.fen = some f) (hft : jsTruthy e.fen = true)
    (htr : e.transcript = some tr) (hum : e.user_move = some um)
    (hem : e.engine_move = some em) :
    (processLine p st l).finalResult = some ⟨tr, um, em, f, []⟩
    ∧ ∀ fr r, submitTurnStream p fr = Except.ok r → r.moves = [] := by
  constructor
  · have hfe : isFinalEvent e = true := by
      unfold isFinalEvent
      rw [hs, if_pos rfl]
      exact hft
    rw [processLine_finalResult, hl]
    simp only [hfe, if_true]
    unfold synthTurnResponse
    rw [htr, hum, hem, hf]
    rfl
  · intro fr r h
    exact submitTurnStream_ok_moves_nil p fr r h

set_option maxRecDepth 16384 in
/-- Witness for C6 at a concrete complete frame carrying every field. -/
theorem c6_synth_result_witness :
    lineParse jsonParseUpdate sampleCompleteLine = some sampleCompleteEvent
    ∧ sampleCompleteEvent.status = "complete"
    ∧ sampleCompleteEvent.fen = some "fen-next"
    ∧ jsTruthy sampleCompleteEvent.fen = true
    ∧ sampleCompleteEvent.transcript = some "knight to f3"
    ∧ sampleCompleteEvent.user_move = some ⟨"g1f3", "Nf3"⟩
    ∧ sampleCompleteEvent.engine_move = some ⟨"g8f6", "Nf6"⟩
    ∧ (processLine jsonParseUpdate ⟨[], none⟩ sampleCompleteLine).finalResult
        = some ⟨"knight to f3", ⟨"g1f3", "Nf3"⟩, ⟨"g8f6", "Nf6"⟩, "fen-next", []⟩ :=
  ⟨rfl, rfl, rfl, rfl, rfl, rfl, rfl,
    (c6_synth_result jsonParseUpdate ⟨[], none⟩ sampleCompleteLine sampleCompleteEvent
      "fen-next" "knight to f3" ⟨"g1f3", "Nf3"⟩ ⟨"g8f6", "Nf6"⟩
      rfl rfl rfl rfl rfl rfl rfl).1⟩

/-- Claim C7: the turn deadline is the fixed 15000 ms; an abort — during
the fetch or mid-read — makes the call reject with the timeout-specific
message; a non-abort error passes through with its own message; and the
timeout message differs from each fixed internal failure message of
`submitTurnStream` (`"No response body"`, the missing-result message). -/
theorem c7_timeout (p : String → Option StreamUpdate) (e : JsError)
    (msg statusText : String) (detail : Option String) (rest : List ReadEvent)
    (hname : e.name ≠ "AbortError") :
    TURN_TIMEOUT_MS = 15000
    ∧ submitTurnStream p (.fetchThrew ⟨"AbortError", msg⟩)
        = .error "Request timed out. Please try again with a shorter recording."
    ∧ submitTurnStream p (.response true detail statusText
          (some (ReadEvent.fail ⟨"AbortError", msg⟩ :: rest)))
        = .error "Request timed out. Please try again with a shorter recording."
    ∧ mapAbort (.error e) = .error e.message
    ∧ ("Request timed out. Please try again with a shorter recording." : String)
        ≠ "No response body"
    ∧ ("Request timed out. Please try again with a shorter recording." : String)
        ≠ "No final result received from server" := by
  refine ⟨rfl, rfl, rfl, ?_, by decide, by decide⟩
  show Except.error (if e.name = "AbortError" then _ else e.message) = Except.error e.message
  rw [if_neg hname]

/-- Witness for C7 at a concrete non-abort error. -/
theorem c7_timeout_witness :
    (⟨"TypeError", "network down"⟩ : JsError).name ≠ "AbortError"
    ∧ mapAbort (.error ⟨"TypeError", "network down"⟩) = .error "network down" :=
  ⟨by decide,
    (c7_timeout jsonParseUpdate ⟨"TypeError", "network down"⟩ "aborted" "st" none []
      (by decide)).2.2.2.1⟩

/-- Claim C8: after a successful turn the controller's session view is
exactly the separately fetched session state, whatever the streamed turn
payload was — in particular the result is unchanged under any replacement
of the streamed `moves` list, which the success path never reads. -/
theorem c8_reconcile_authoritative (s : AppState) (turn : TurnResponse)
    (ms : List MoveRecord) (fetched : SessionState) :
    (handleTurnSuccess s turn fetched).session = some fetched
    ∧ handleTurnSuccess s { turn with moves := ms } fetched
        = handleTurnSuccess s turn fetched := by
  constructor
  · show (applyTerminalCheck (reconcileSession s fetched)
      turn.transcript turn.user_move.san turn.engine_move.san).session = some fetched
    rw [applyTerminalCheck_session]
    rfl
  · rfl

/-- Claim C10: a `complete` event without a `fen` is dispatched to the
handler but leaves `finalResult` untouched; and a stream whose every
dispatched `complete` event lacks a `fen` makes `submitTurnStream` reject
with the missing-result error although the server signalled completion. -/
theorem c10_complete_without_fen (p : String → Option StreamUpdate)
    (st : LoopState) (l : String) (e : StreamUpdate) (chunks : List String)
    (detail : Option String) (statusText : String)
    (hl : lineParse p l = some e) (hs : e.status = "complete") (hf : e.fen = none)
    (hAll : ∀ e' ∈ (runStream p chunks).dispatched,
      e'.status = "complete" → e'.fen = none) :
    processLine p st l = { st with dispatched := st.dispatched ++ [e] }
    ∧ (processLine p st l).finalResult = st.finalResult
    ∧ submitTurnStream p (.response true detail statusText (some (chunkReads chunks)))
        = .error "No final result received from server" := by
  have hfe : isFinalEvent e = false := by
    unfold isFinalEvent
    rw [hs, if_pos rfl, hf]
    rfl
  refine ⟨?_, ?_, ?_⟩
  · unfold processLine
    rw [hl]
    simp [hfe, ite_self]
  · rw [processLine_finalResult, hl]
    simp [hfe]
  · have h5 : ∀ e' ∈ (runStream p chunks).dispatched, isFinalEvent e' = false := by
      intro e' he'
      unfold isFinalEvent
      by_cases hc : e'.status = "complete"
      · rw [if_pos hc, hAll e' he' hc]
        rfl
      · rw [if_neg hc]
    rw [submitTurnStream_chunks, runStream_final_none p chunks h5]

/-- Witness for C10 at a concrete `complete` frame without `fen`. -/
theorem c10_complete_without_fen_witness :
    lineParse jsonParseUpdate sampleCompNoFenLine = some sampleCompNoFenEvent
    ∧ sampleCompNoFenEvent.status = "complete"
    ∧ sampleCompNoFenEvent.fen = none
    ∧ (∀ e' ∈ (runStream jsonParseUpdate sampleCompNoFenChunks).dispatched,
        e'.status = "complete" → e'.fen = none)
    ∧ processLine jsonParseUpdate ⟨[], none⟩ sampleCompNoFenLine
        = ⟨[sampleCompNoFenEvent], none⟩
    ∧ submitTurnStream jsonParseUpdate
        (.response true none "ok" (some (chunkReads sampleCompNoFenChunks)))
      = .error "No final result received from server" :=
  ⟨rfl, rfl, rfl, by decide,
    (c10_complete_without_fen jsonParseUpdate ⟨[], none⟩ sampleCompNoFenLine
      sampleCompNoFenEvent sampleCompNoFenChunks none "ok" rfl rfl rfl (by decide)).1,
    (c10_complete_without_fen jsonParseUpdate ⟨[], none⟩ sampleCompNoFenLine
      sampleCompNoFenEvent sampleCompNoFenChunks none "ok" rfl rfl rfl (by decide)).2.2⟩

end Claims

end VoiceChess
